import Mathlib

/-!
Shallow embedding of the Blood on the Clocktower session backend
(`game_service.py`, `models.py`).

Modelling choices:
* The in-memory `games` dict is an association list `Store`.
* Mutating operations (`create_game`, `join_game`, `start_game`) take the
  store and return an `EStateM.Result`: on success the updated store, on a
  raised `ValueError`/`KeyError` the store as it was at the raise point.
  Since the Python code raises before mutating, every error carries the
  unchanged input store; this is what the atomicity claims check.
* `random.sample` and `random.shuffle` are oracle parameters; theorems
  assume only their contracts (`SampleSpec`: the result is a permutation of
  a sublist of the pool with the requested length; `ShuffleSpec`: the
  result is a permutation of the input).
* `uuid` identifiers are passed in as explicit string arguments.
* Python's stable `sorted` is `List.mergeSort` (also a stable sort).
* The pydantic `CharacterType` enum is modelled as a plain string tag.
-/

/-- One character record of the edition catalog JSON (before tagging). -/
structure CharJson where
  id : String
  name : String
  ability : String
  first_night : Nat
  other_nights : Nat
deriving DecidableEq, Repr

/-- Embeds `models.Character`. -/
structure Character where
  id : String
  name : String
  ability : String
  first_night : Nat
  other_nights : Nat
  type : Option String
deriving DecidableEq, Repr

/-- Embeds `models.Player`. -/
structure Player where
  id : String
  name : String
  character : Option Character
  is_storyteller : Bool
deriving DecidableEq, Repr

/-- Embeds `models.Game`. -/
structure Game where
  id : String
  edition : String
  players : List Player
  started : Bool
  player_count : Option Nat
deriving DecidableEq, Repr

/-- One edition of `data/editions.json`: characters keyed by category,
setup keyed by player count. -/
structure EditionData where
  name : String
  characters : List (String × List CharJson)
  setup : List (Nat × List (String × Nat))
deriving DecidableEq, Repr

abbrev EditionsData := List (String × EditionData)

abbrev Store := List (String × Game)

/-- Python dict assignment `d[k] = v`: replace the binding in place if the
key exists, otherwise append it. -/
def storeSet (st : Store) (k : String) (v : Game) : Store :=
  match st with
  | [] => [(k, v)]
  | (k', v') :: rest =>
    if k' = k then (k, v) :: rest else (k', v') :: storeSet rest k v

/-- Embeds `GameService.create_game`; the generated uuids are the arguments
`game_id` and `storyteller_id`. -/
def create_game (eds : EditionsData) (edition storyteller_name : String)
    (game_id storyteller_id : String) (st : Store) :
    EStateM.Result String Store Game :=
  match eds.lookup edition with
  | none => .error ("Edition " ++ edition ++ " nicht gefunden") st
  | some _ =>
    let storyteller : Player :=
      { id := storyteller_id, name := storyteller_name,
        character := none, is_storyteller := true }
    let game : Game :=
      { id := game_id, edition := edition, players := [storyteller],
        started := false, player_count := none }
    .ok game (storeSet st game_id game)

/-- Embeds `GameService.join_game`; the generated uuid is the argument
`player_id`. -/
def join_game (game_id player_name player_id : String) (st : Store) :
    EStateM.Result String Store Player :=
  match st.lookup game_id with
  | none => .error ("Spiel " ++ game_id ++ " nicht gefunden") st
  | some game =>
    if game.started then .error "Spiel hat bereits begonnen" st
    else
      let player : Player :=
        { id := player_id, name := player_name,
          character := none, is_storyteller := false }
      .ok player
        (storeSet st game_id { game with players := game.players ++ [player] })

/-- Embeds `GameService._get_role_distribution`. -/
def get_role_distribution (eds : EditionsData) (edition : String)
    (player_count : Nat) : Except String (List (String × Nat)) :=
  match eds.lookup edition with
  | none => .error ("KeyError: " ++ edition)
  | some ed =>
    match ed.setup.lookup player_count with
    | none => .error ("Ungültige Spielerzahl: " ++ toString player_count)
    | some d => .ok d

/-- Construction of `models.Character` from a catalog record plus its
category tag. -/
def mkCharacter (c : CharJson) (char_type : String) : Character :=
  { id := c.id, name := c.name, ability := c.ability,
    first_night := c.first_night, other_nights := c.other_nights,
    type := some char_type }

/-- The loop of `GameService._select_random_characters` over the
distribution items. -/
def selectLoop (sample : List CharJson → Nat → List CharJson)
    (characters_data : List (String × List CharJson)) :
    List (String × Nat) → Except String (List Character)
  | [] => .ok []
  | (char_type, count) :: rest =>
    match characters_data.lookup char_type with
    | none => .error ("KeyError: " ++ char_type)
    | some available =>
      let chosen := sample available (min count available.length)
      match selectLoop sample characters_data rest with
      | .error e => .error e
      | .ok others => .ok (chosen.map (fun c => mkCharacter c char_type) ++ others)

/-- Embeds `GameService._select_random_characters`. -/
def select_random_characters (sample : List CharJson → Nat → List CharJson)
    (eds : EditionsData) (edition : String)
    (distribution : List (String × Nat)) : Except String (List Character) :=
  match eds.lookup edition with
  | none => .error ("KeyError: " ++ edition)
  | some ed => selectLoop sample ed.characters distribution

/-- The assignment loop of `start_game`:
`for player, character in zip(non_storyteller_players, characters):
player.character = character`, expressed on the full player list (the
Python loop mutates the shared `Player` objects in place). -/
def assignCharacters : List Player → List Character → List Player
  | [], _ => []
  | p :: ps, [] => p :: assignCharacters ps []
  | p :: ps, c :: cs =>
    if p.is_storyteller then p :: assignCharacters ps (c :: cs)
    else { p with character := some c } :: assignCharacters ps cs

/-- Embeds `GameService.start_game`. -/
def start_game (eds : EditionsData)
    (sample : List CharJson → Nat → List CharJson)
    (shuffle : List Character → List Character)
    (game_id : String) (player_count : Nat) (st : Store) :
    EStateM.Result String Store Game :=
  match st.lookup game_id with
  | none => .error ("Spiel " ++ game_id ++ " nicht gefunden") st
  | some game =>
    if game.started then .error "Spiel hat bereits begonnen" st
    else
      let non_storyteller_players := game.players.filter (fun p => !p.is_storyteller)
      if non_storyteller_players.length ≠ player_count then
        .error ("Spieleranzahl stimmt nicht überein. Erwartet: " ++
          toString player_count ++ ", Vorhanden: " ++
          toString non_storyteller_players.length) st
      else
        match get_role_distribution eds game.edition player_count with
        | .error e => .error e st
        | .ok distribution =>
          match select_random_characters sample eds game.edition distribution with
          | .error e => .error e st
          | .ok selected =>
            let characters := shuffle selected
            let game' := { game with
              players := assignCharacters game.players characters,
              started := true,
              player_count := some player_count }
            .ok game' (storeSet st game_id game')

/-- An entry of the night-order response. -/
structure NightEntry where
  name : String
  ability : String
  order : Nat
deriving DecidableEq, Repr

/-- The night-order response of `get_night_order`. -/
structure NightOrder where
  first_night : List NightEntry
  other_nights : List NightEntry
deriving DecidableEq, Repr

/-- Embeds `GameService.get_night_order` (read-only). -/
def get_night_order (st : Store) (game_id : String) : Except String NightOrder :=
  match st.lookup game_id with
  | none => .error "Spiel nicht gefunden oder noch nicht gestartet"
  | some game =>
    if !game.started then .error "Spiel nicht gefunden oder noch nicht gestartet"
    else
      let characters_in_game := game.players.filterMap (fun p => p.character)
      let first_night :=
        (characters_in_game.filter (fun c => decide (0 < c.first_night))).mergeSort
          (fun a b => decide (a.first_night ≤ b.first_night))
      let other_nights :=
        (characters_in_game.filter (fun c => decide (0 < c.other_nights))).mergeSort
          (fun a b => decide (a.other_nights ≤ b.other_nights))
      .ok {
        first_night := first_night.map (fun c => ⟨c.name, c.ability, c.first_night⟩),
        other_nights := other_nights.map (fun c => ⟨c.name, c.ability, c.other_nights⟩) }

/-- Embeds `GameService.get_player_role` (read-only, never raises). -/
def get_player_role (st : Store) (game_id player_id : String) : Option Character :=
  match st.lookup game_id with
  | none => none
  | some game =>
    match game.players.find? (fun p => p.id == player_id) with
    | none => none
    | some p => p.character

/-- One row of the storyteller overview. -/
structure PlayerOverview where
  name : String
  character : Option String
  ability : Option String
  type : Option String
deriving DecidableEq, Repr

/-- The storyteller-overview response. -/
structure Overview where
  game_id : String
  edition : String
  started : Bool
  players : List PlayerOverview
  night_order : Option NightOrder
deriving DecidableEq, Repr

/-- The per-player row built by `get_storyteller_overview`. -/
def playerOverviewOf (p : Player) : PlayerOverview :=
  { name := p.name,
    character := p.character.map (fun c => c.name),
    ability := p.character.map (fun c => c.ability),
    type := (p.character.map (fun c => c.type)).join }

/-- Embeds `GameService.get_storyteller_overview` (read-only). -/
def get_storyteller_overview (st : Store) (game_id player_id : String) :
    Except String Overview :=
  match st.lookup game_id with
  | none => .error "Spiel nicht gefunden"
  | some game =>
    match game.players.find? (fun p => p.id == player_id && p.is_storyteller) with
    | none => .error "Nur der Erzähler kann diese Ansicht sehen"
    | some _ =>
      let players_overview :=
        (game.players.filter (fun p => !p.is_storyteller)).map playerOverviewOf
      match (if game.started then (get_night_order st game_id).map some
             else .ok none) with
      | .error e => .error e
      | .ok norder =>
        .ok { game_id := game.id, edition := game.edition,
              started := game.started, players := players_overview,
              night_order := norder }

/-- Contract of `random.sample pool k` (for `k ≤ |pool|`): `k` elements
drawn without replacement, i.e. a permutation of a sublist of the pool. -/
def SampleSpec (sample : List CharJson → Nat → List CharJson) : Prop :=
  ∀ pool n, n ≤ pool.length →
    (sample pool n).length = n ∧
    ∃ sub, List.Sublist sub pool ∧ List.Perm (sample pool n) sub

/-- Contract of `random.shuffle`: a permutation of the input. -/
def ShuffleSpec (shuffle : List Character → List Character) : Prop :=
  ∀ l, List.Perm (shuffle l) l

/-- A deterministic sampler satisfying `SampleSpec`, used by witnesses. -/
def sampleTake : List CharJson → Nat → List CharJson :=
  fun pool n => pool.take n

/-- A deterministic shuffler satisfying `ShuffleSpec`, used by witnesses. -/
def shuffleId : List Character → List Character := fun l => l

/-- The per-category contract of the selection loop: the piece drawn for a
distribution entry has exactly `min required available` characters, every
one tagged with the entry's category, and is a permutation of a sublist of
(i.e. drawn without replacement from) that category's pool. -/
def PieceSpec (characters_data : List (String × List CharJson))
    (q : String × Nat) (piece : List Character) : Prop :=
  ∃ available, characters_data.lookup q.1 = some available ∧
    piece.length = min q.2 available.length ∧
    (∀ c ∈ piece, c.type = some q.1) ∧
    ∃ sub, List.Sublist sub available ∧
      piece.Perm (sub.map (fun c => mkCharacter c q.1))

/-- The host is the first participant, has no character, and every later
participant is a non-host. -/
def HostInv (g : Game) : Prop :=
  ∃ host rest, g.players = host :: rest ∧ host.is_storyteller = true ∧
    host.character = none ∧ ∀ p ∈ rest, p.is_storyteller = false

/-- Any store reachable from the empty store by successful `create_game`,
`join_game` and `start_game` calls (failed calls leave the store untouched
by `mutating_ops_atomic`). -/
inductive Reachable (eds : EditionsData) : Store → Prop
  | init : Reachable eds []
  | create (st : Store) (edition storyteller_name game_id storyteller_id : String)
      (g : Game) (st' : Store) :
      Reachable eds st →
      create_game eds edition storyteller_name game_id storyteller_id st =
        .ok g st' →
      Reachable eds st'
  | join (st : Store) (game_id player_name player_id : String) (p : Player)
      (st' : Store) :
      Reachable eds st →
      join_game game_id player_name player_id st = .ok p st' →
      Reachable eds st'
  | start (st : Store) (sample : List CharJson → Nat → List CharJson)
      (shuffle : List Character → List Character) (game_id : String)
      (pc : Nat) (g : Game) (st' : Store) :
      Reachable eds st →
      start_game eds sample shuffle game_id pc st = .ok g st' →
      Reachable eds st'

/-! ### Witness fixtures: a two-player Trouble-Brewing-style session whose
single townsfolk bucket is shorter than the requested count. -/

def cjA : CharJson :=
  { id := "washerwoman", name := "Washerwoman",
    ability := "Learns that a Townsfolk is in play", first_night := 1,
    other_nights := 0 }

def edW : EditionData :=
  { name := "Trouble Brewing", characters := [("townsfolk", [cjA])],
    setup := [(2, [("townsfolk", 2)])] }

def edsW : EditionsData := [("tb", edW)]

def hostW : Player :=
  { id := "h1", name := "Alice", character := none, is_storyteller := true }

def bobW : Player :=
  { id := "p1", name := "Bob", character := none, is_storyteller := false }

def carolW : Player :=
  { id := "p2", name := "Carol", character := none, is_storyteller := false }

def gameW : Game :=
  { id := "g1", edition := "tb", players := [hostW, bobW, carolW],
    started := false, player_count := none }

def stW : Store := [("g1", gameW)]

def charA : Character := mkCharacter cjA "townsfolk"

def bobWA : Player := { bobW with character := some charA }

def gameWS : Game :=
  { gameW with
    players := [hostW, bobWA, carolW],
    started := true,
    player_count := some 2 }

def stWS : Store := [("g1", gameWS)]

/-- The night order of the started fixture session. -/
def noW : NightOrder :=
  { first_night :=
      [⟨"Washerwoman", "Learns that a Townsfolk is in play", 1⟩],
    other_nights := [] }

theorem sampleTake_spec : SampleSpec sampleTake := by
  intro pool n h
  refine ⟨by simpa [sampleTake] using Nat.min_eq_left h, pool.take n, ?_, ?_⟩
  · exact List.take_sublist n pool
  · exact List.Perm.refl _

theorem shuffleId_spec : ShuffleSpec shuffleId := fun l => List.Perm.refl l

/-! ### Store lemmas -/

theorem lookup_storeSet_self (st : Store) (k : String) (v : Game) :
    (storeSet st k v).lookup k = some v := by
  induction st with
  | nil => simp [storeSet, List.lookup]
  | cons hd tl ih =>
    obtain ⟨k', v'⟩ := hd
    by_cases h : k' = k
    · simp [storeSet, h, List.lookup]
    · have hkk : (k == k') = false := beq_eq_false_iff_ne.mpr (Ne.symm h)
      simp [storeSet, h, List.lookup, hkk, ih]

theorem lookup_storeSet_ne (st : Store) (k k' : String) (v : Game)
    (h : k' ≠ k) : (storeSet st k v).lookup k' = st.lookup k' := by
  have hkk : (k' == k) = false := beq_eq_false_iff_ne.mpr h
  induction st with
  | nil => simp [storeSet, List.lookup, hkk]
  | cons hd tl ih =>
    obtain ⟨k₀, v₀⟩ := hd
    by_cases h0 : k₀ = k
    · subst h0
      simp [storeSet, List.lookup, hkk]
    · simp [storeSet, h0, List.lookup, ih]

theorem mem_storeSet (st : Store) (k : String) (v : Game) (x : String × Game)
    (hx : x ∈ storeSet st k v) : x = (k, v) ∨ x ∈ st := by
  induction st with
  | nil => simpa [storeSet] using hx
  | cons hd tl ih =>
    obtain ⟨k₀, v₀⟩ := hd
    by_cases h0 : k₀ = k
    · rw [storeSet, if_pos h0] at hx
      rcases List.mem_cons.mp hx with h1 | h1
      · exact Or.inl h1
      · exact Or.inr (List.mem_cons_of_mem _ h1)
    · rw [storeSet, if_neg h0] at hx
      rcases List.mem_cons.mp hx with h1 | h1
      · exact Or.inr (by simp [h1])
      · rcases ih h1 with h2 | h2
        · exact Or.inl h2
        · exact Or.inr (List.mem_cons_of_mem _ h2)

/-! ### assignCharacters lemmas -/

theorem assignCharacters_nil (ps : List Player) :
    assignCharacters ps [] = ps := by
  induction ps with
  | nil => rfl
  | cons p ps ih => simp [assignCharacters, ih]

theorem assignCharacters_length (ps : List Player) (cs : List Character) :
    (assignCharacters ps cs).length = ps.length := by
  induction ps generalizing cs with
  | nil => rfl
  | cons p ps ih =>
    cases cs with
    | nil => simp [assignCharacters, ih]
    | cons c cs =>
      by_cases h : p.is_storyteller <;> simp [assignCharacters, h, ih]

/-- The non-host sublist of the updated player list: the first `|cs|`
non-host players get the characters by position, trailing non-host players
are left as they were. -/
theorem filter_assignCharacters (ps : List Player) (cs : List Character) :
    (assignCharacters ps cs).filter (fun p => !p.is_storyteller) =
      ((ps.filter (fun p => !p.is_storyteller)).zip cs).map
          (fun q => { q.1 with character := some q.2 }) ++
        (ps.filter (fun p => !p.is_storyteller)).drop cs.length := by
  induction ps generalizing cs with
  | nil => simp [assignCharacters]
  | cons p ps ih =>
    cases cs with
    | nil => simp [assignCharacters_nil]
    | cons c cs =>
      by_cases h : p.is_storyteller
      · simp [assignCharacters, h, ih]
      · simp [assignCharacters, h, ih]

/-- Hosts pass through the assignment loop untouched. -/
theorem filter_host_assignCharacters (ps : List Player) (cs : List Character) :
    (assignCharacters ps cs).filter (fun p => p.is_storyteller) =
      ps.filter (fun p => p.is_storyteller) := by
  induction ps generalizing cs with
  | nil => simp [assignCharacters]
  | cons p ps ih =>
    cases cs with
    | nil => simp [assignCharacters_nil]
    | cons c cs =>
      by_cases h : p.is_storyteller
      · simp [assignCharacters, h, ih]
      · simp [assignCharacters, h, ih]

theorem assignCharacters_cons_host (p : Player) (ps : List Player)
    (cs : List Character) (h : p.is_storyteller = true) :
    assignCharacters (p :: ps) cs = p :: assignCharacters ps cs := by
  cases cs with
  | nil => rfl
  | cons c cs => simp [assignCharacters, h]

theorem assignCharacters_nonhost_flag (ps : List Player) (cs : List Character)
    (h : ∀ p ∈ ps, p.is_storyteller = false) :
    ∀ q ∈ assignCharacters ps cs, q.is_storyteller = false := by
  induction ps generalizing cs with
  | nil => simp [assignCharacters]
  | cons p ps ih =>
    have hp := h p (by simp)
    have hps : ∀ p' ∈ ps, p'.is_storyteller = false :=
      fun p' hp' => h p' (List.mem_cons_of_mem _ hp')
    cases cs with
    | nil =>
      intro q hq
      rw [assignCharacters_nil] at hq
      exact h q hq
    | cons c cs =>
      intro q hq
      rw [assignCharacters, if_neg (by simp [hp])] at hq
      rcases List.mem_cons.mp hq with h1 | h1
      · subst h1; exact hp
      · exact ih cs hps q h1

theorem filterMap_character_none (ps : List Player)
    (h : ∀ p ∈ ps, p.character = none) :
    ps.filterMap (fun p => p.character) = [] := by
  induction ps with
  | nil => rfl
  | cons p ps ih =>
    have hp := h p (by simp)
    simp only [List.filterMap_cons, hp]
    exact ih (fun p' hp' => h p' (List.mem_cons_of_mem _ hp'))

/-- With no pre-assigned characters, the assigned characters of the updated
list, in player order, are exactly the first characters handed in. -/
theorem filterMap_assignCharacters (ps : List Player) (cs : List Character)
    (h : ∀ p ∈ ps, p.character = none) :
    (assignCharacters ps cs).filterMap (fun p => p.character) =
      cs.take (ps.filter (fun p => !p.is_storyteller)).length := by
  induction ps generalizing cs with
  | nil => simp [assignCharacters]
  | cons p ps ih =>
    have hp := h p (by simp)
    have hps : ∀ p' ∈ ps, p'.character = none :=
      fun p' hp' => h p' (List.mem_cons_of_mem _ hp')
    cases cs with
    | nil =>
      rw [assignCharacters_nil, List.take_nil]
      exact filterMap_character_none _ h
    | cons c cs =>
      by_cases hs : p.is_storyteller
      · simp [assignCharacters, hs, List.filterMap_cons, hp, ih _ hps]
      · simp [assignCharacters, hs, List.filterMap_cons, ih _ hps]

/-! ### start_game success inversion -/

theorem start_game_ok (eds : EditionsData)
    (sample : List CharJson → Nat → List CharJson)
    (shuffle : List Character → List Character)
    (game_id : String) (pc : Nat) (st : Store) (game' : Game) (st' : Store)
    (h : start_game eds sample shuffle game_id pc st = .ok game' st') :
    ∃ game distribution selected,
      st.lookup game_id = some game ∧
      game.started = false ∧
      (game.players.filter (fun p => !p.is_storyteller)).length = pc ∧
      get_role_distribution eds game.edition pc = .ok distribution ∧
      select_random_characters sample eds game.edition distribution = .ok selected ∧
      game' = { game with
        players := assignCharacters game.players (shuffle selected),
        started := true, player_count := some pc } ∧
      st' = storeSet st game_id game' := by
  simp only [start_game] at h
  split at h
  · exact (EStateM.Result.noConfusion h)
  next game hl =>
    split at h
    · exact (EStateM.Result.noConfusion h)
    next hs =>
      split at h
      · exact (EStateM.Result.noConfusion h)
      next hcnt =>
        split at h
        · exact (EStateM.Result.noConfusion h)
        next distribution hd =>
          split at h
          · exact (EStateM.Result.noConfusion h)
          next selected hsel =>
            injection h with h1 h2
            subst h1
            exact ⟨game, distribution, selected, hl,
              Bool.not_eq_true _ ▸ Bool.of_not_eq_true hs,
              Decidable.not_not.mp hcnt, hd, hsel, rfl, h2.symm⟩

/-- C1: on success, `start_game` zips the shuffled character list produced
by the assignment engine one-to-one against the non-host participants in
join order (participant `i` receives shuffled character `i`), sets
`started := true`, records the participant count, and when the character
list is shorter the trailing non-host participants are left exactly as they
were (in particular without an assigned character); the call still
succeeds. -/
theorem startSession_success_spec (eds : EditionsData)
    (sample : List CharJson → Nat → List CharJson)
    (shuffle : List Character → List Character)
    (game_id : String) (pc : Nat) (st : Store) (game' : Game) (st' : Store)
    (h : start_game eds sample shuffle game_id pc st = .ok game' st') :
    ∃ game selected,
      st.lookup game_id = some game ∧
      (∃ distribution,
        get_role_distribution eds game.edition pc = .ok distribution ∧
        select_random_characters sample eds game.edition distribution =
          .ok selected) ∧
      game'.started = true ∧
      game'.player_count = some pc ∧
      st' = storeSet st game_id game' ∧
      game'.players.filter (fun p => !p.is_storyteller) =
        ((game.players.filter (fun p => !p.is_storyteller)).zip
            (shuffle selected)).map
          (fun q => { q.1 with character := some q.2 }) ++
        (game.players.filter (fun p => !p.is_storyteller)).drop
          (shuffle selected).length := by
  obtain ⟨game, distribution, selected, hl, hs, hcnt, hd, hsel, hg, hst⟩ :=
    start_game_ok eds sample shuffle game_id pc st game' st' h
  refine ⟨game, selected, hl, ⟨distribution, hd, hsel⟩, ?_, ?_, hst, ?_⟩
  · rw [hg]
  · rw [hg]
  · rw [hg]
    exact filter_assignCharacters game.players (shuffle selected)

/-- Witness for C1 at the fixture session: two non-host players, one
available character, the call succeeds with the trailing player
unassigned. -/
theorem startSession_success_spec_witness :
    ∃ game selected,
      stW.lookup "g1" = some game ∧
      (∃ distribution,
        get_role_distribution edsW game.edition 2 = .ok distribution ∧
        select_random_characters sampleTake edsW game.edition distribution =
          .ok selected) ∧
      gameWS.started = true ∧
      gameWS.player_count = some 2 ∧
      stWS = storeSet stW "g1" gameWS ∧
      gameWS.players.filter (fun p => !p.is_storyteller) =
        ((game.players.filter (fun p => !p.is_storyteller)).zip
            (shuffleId selected)).map
          (fun q => { q.1 with character := some q.2 }) ++
        (game.players.filter (fun p => !p.is_storyteller)).drop
          (shuffleId selected).length :=
  startSession_success_spec edsW sampleTake shuffleId "g1" 2 stW gameWS stWS
    (by rfl)

/-- C3: `start_game` fails with the not-found error when the session id is
unknown; with the already-started error when `started` is already true;
with the count-mismatch error when the number of non-host participants is
not exactly the requested count; and a second call after a successful one
always fails with the already-started error. In each case the raised error
carries the untouched store. -/
theorem startSession_error_spec (eds : EditionsData)
    (sample : List CharJson → Nat → List CharJson)
    (shuffle : List Character → List Character)
    (game_id : String) (pc : Nat) (st : Store) :
    (st.lookup game_id = none →
      start_game eds sample shuffle game_id pc st =
        .error ("Spiel " ++ game_id ++ " nicht gefunden") st) ∧
    (∀ game, st.lookup game_id = some game → game.started = true →
      start_game eds sample shuffle game_id pc st =
        .error "Spiel hat bereits begonnen" st) ∧
    (∀ game, st.lookup game_id = some game → game.started = false →
      (game.players.filter (fun p => !p.is_storyteller)).length ≠ pc →
      start_game eds sample shuffle game_id pc st =
        .error ("Spieleranzahl stimmt nicht überein. Erwartet: " ++
          toString pc ++ ", Vorhanden: " ++
          toString (game.players.filter (fun p => !p.is_storyteller)).length) st) ∧
    (∀ game' st' pc'
      (sample' : List CharJson → Nat → List CharJson)
      (shuffle' : List Character → List Character),
      start_game eds sample shuffle game_id pc st = .ok game' st' →
      start_game eds sample' shuffle' game_id pc' st' =
        .error "Spiel hat bereits begonnen" st') := by
  refine ⟨?_, ?_, ?_, ?_⟩
  · intro hl
    simp [start_game, hl]
  · intro game hl hs
    simp [start_game, hl, hs]
  · intro game hl hs hcnt
    simp [start_game, hl, hs, hcnt]
  · intro game' st' pc' sample' shuffle' h
    obtain ⟨game, distribution, selected, hl, hs, hcnt, hd, hsel, hg, hst⟩ :=
      start_game_ok eds sample shuffle game_id pc st game' st' h
    have hl' : st'.lookup game_id = some game' := by
      rw [hst]; exact lookup_storeSet_self st game_id game'
    have hs' : game'.started = true := by rw [hg]
    simp [start_game, hl', hs']

/-- Witness for C3: unknown id, already-started session, count mismatch,
and a second call after a successful first call. -/
theorem startSession_error_spec_witness :
    (start_game edsW sampleTake shuffleId "nope" 2 stW =
      .error ("Spiel " ++ "nope" ++ " nicht gefunden") stW) ∧
    (start_game edsW sampleTake shuffleId "g1" 2 stWS =
      .error "Spiel hat bereits begonnen" stWS) ∧
    (start_game edsW sampleTake shuffleId "g1" 3 stW =
      .error ("Spieleranzahl stimmt nicht überein. Erwartet: " ++
        toString 3 ++ ", Vorhanden: " ++
        toString (gameW.players.filter (fun p => !p.is_storyteller)).length) stW) ∧
    (start_game edsW sampleTake shuffleId "g1" 5 stWS =
      .error "Spiel hat bereits begonnen" stWS) :=
  ⟨(startSession_error_spec edsW sampleTake shuffleId "nope" 2 stW).1 rfl,
   (startSession_error_spec edsW sampleTake shuffleId "g1" 2 stWS).2.1 gameWS
     rfl rfl,
   (startSession_error_spec edsW sampleTake shuffleId "g1" 3 stW).2.2.1 gameW
     rfl rfl (by decide),
   (startSession_error_spec edsW sampleTake shuffleId "g1" 2 stW).2.2.2 gameWS
     stWS 5 sampleTake shuffleId (by rfl)⟩

/-- C9: every mutating operation is atomic: whenever it fails, the error
result carries the store exactly as it was before the call (all
error-raising checks happen before any state mutation). -/
theorem mutating_ops_atomic (eds : EditionsData) (st : Store) :
    (∀ edition storyteller_name game_id storyteller_id e st',
      create_game eds edition storyteller_name game_id storyteller_id st =
        .error e st' → st' = st) ∧
    (∀ game_id player_name player_id e st',
      join_game game_id player_name player_id st = .error e st' → st' = st) ∧
    (∀ (sample : List CharJson → Nat → List CharJson)
      (shuffle : List Character → List Character) game_id pc e st',
      start_game eds sample shuffle game_id pc st = .error e st' →
      st' = st) := by
  refine ⟨?_, ?_, ?_⟩
  · intro edition storyteller_name game_id storyteller_id e st' h
    simp only [create_game] at h
    split at h
    · injection h with h1 h2; exact h2.symm
    · exact (EStateM.Result.noConfusion h)
  · intro game_id player_name player_id e st' h
    simp only [join_game] at h
    split at h
    · injection h with h1 h2; exact h2.symm
    next game hl =>
      split at h
      · injection h with h1 h2; exact h2.symm
      · exact (EStateM.Result.noConfusion h)
  · intro sample shuffle game_id pc e st' h
    simp only [start_game] at h
    split at h
    · injection h with h1 h2; exact h2.symm
    next game hl =>
      split at h
      · injection h with h1 h2; exact h2.symm
      next hs =>
        split at h
        · injection h with h1 h2; exact h2.symm
        next hcnt =>
          split at h
          · injection h with h1 h2; exact h2.symm
          next distribution hd =>
            split at h
            · injection h with h1 h2; exact h2.symm
            next selected hsel => exact (EStateM.Result.noConfusion h)

/-- Witness for C9: a failing create (unknown edition), a failing join
(unknown session) and a failing start (count mismatch) all return the
untouched store. -/
theorem mutating_ops_atomic_witness : stW = stW ∧ stW = stW ∧ stW = stW :=
  ⟨(mutating_ops_atomic edsW stW).1 "bmr" "Alice" "g9" "h9" _ stW (by rfl),
   (mutating_ops_atomic edsW stW).2.1 "nope" "Dave" "p9" _ stW (by rfl),
   (mutating_ops_atomic edsW stW).2.2 sampleTake shuffleId "g1" 7 _ stW
     (by rfl)⟩

/-- C6: `join_game` fails with the not-found error for an unknown session
id, fails with the already-started error once the session has started, and
otherwise appends exactly one new non-host participant to the end of the
participant list and returns it, leaving the session's edition, started
flag and previously joined participants unchanged and touching no other
session. -/
theorem joinSession_spec (game_id player_name player_id : String)
    (st : Store) :
    (st.lookup game_id = none →
      join_game game_id player_name player_id st =
        .error ("Spiel " ++ game_id ++ " nicht gefunden") st) ∧
    (∀ game, st.lookup game_id = some game → game.started = true →
      join_game game_id player_name player_id st =
        .error "Spiel hat bereits begonnen" st) ∧
    (∀ game, st.lookup game_id = some game → game.started = false →
      ∃ st', join_game game_id player_name player_id st =
          .ok { id := player_id, name := player_name, character := none,
                is_storyteller := false } st' ∧
        st'.lookup game_id = some { game with players := game.players ++
          [{ id := player_id, name := player_name, character := none,
             is_storyteller := false }] } ∧
        (∀ k, k ≠ game_id → st'.lookup k = st.lookup k)) := by
  refine ⟨?_, ?_, ?_⟩
  · intro hl
    simp [join_game, hl]
  · intro game hl hs
    simp [join_game, hl, hs]
  · intro game hl hs
    refine ⟨storeSet st game_id { game with players := game.players ++
      [{ id := player_id, name := player_name, character := none,
         is_storyteller := false }] }, ?_, ?_, ?_⟩
    · simp [join_game, hl, hs]
    · exact lookup_storeSet_self st game_id _
    · intro k hk
      exact lookup_storeSet_ne st game_id k _ hk

/-- Witness for C6: joining the fixture session before start appends Dave,
and the two error branches fire on an unknown id and on the started
session. -/
theorem joinSession_spec_witness :
    (join_game "nope" "Dave" "p9" stW =
      .error ("Spiel " ++ "nope" ++ " nicht gefunden") stW) ∧
    (join_game "g1" "Dave" "p9" stWS =
      .error "Spiel hat bereits begonnen" stWS) ∧
    (∃ st', join_game "g1" "Dave" "p9" stW =
        .ok { id := "p9", name := "Dave", character := none,
              is_storyteller := false } st' ∧
      st'.lookup "g1" = some { gameW with players := gameW.players ++
        [{ id := "p9", name := "Dave", character := none,
           is_storyteller := false }] } ∧
      (∀ k, k ≠ "g1" → st'.lookup k = stW.lookup k)) :=
  ⟨(joinSession_spec "nope" "Dave" "p9" stW).1 rfl,
   (joinSession_spec "g1" "Dave" "p9" stWS).2.1 gameWS rfl rfl,
   (joinSession_spec "g1" "Dave" "p9" stW).2.2 gameW rfl rfl⟩

/-- C8: `get_player_role` never raises: it returns `none` when the session
is unknown or no participant has the given id, and otherwise returns the
(possibly absent) assigned character of the first participant whose id
matches. -/
theorem getPlayerRole_spec (st : Store) (game_id player_id : String) :
    (st.lookup game_id = none → get_player_role st game_id player_id = none) ∧
    (∀ game, st.lookup game_id = some game →
      (∀ p ∈ game.players, p.id ≠ player_id) →
      get_player_role st game_id player_id = none) ∧
    (∀ game p, st.lookup game_id = some game →
      game.players.find? (fun q => q.id == player_id) = some p →
      get_player_role st game_id player_id = p.character) := by
  refine ⟨?_, ?_, ?_⟩
  · intro hl
    simp [get_player_role, hl]
  · intro game hl hnone
    have hf : game.players.find? (fun q => q.id == player_id) = none := by
      rw [List.find?_eq_none]
      intro p hp
      simpa using hnone p hp
    simp [get_player_role, hl, hf]
  · intro game p hl hf
    simp [get_player_role, hl, hf]

/-- Witness for C8: unknown session, unknown participant, a participant
with no character yet, and a participant with an assigned character. -/
theorem getPlayerRole_spec_witness :
    (get_player_role stW "nope" "p1" = none) ∧
    (get_player_role stW "g1" "zz" = none) ∧
    (get_player_role stW "g1" "p1" = bobW.character) ∧
    (get_player_role stWS "g1" "p1" = bobWA.character) :=
  ⟨(getPlayerRole_spec stW "nope" "p1").1 rfl,
   (getPlayerRole_spec stW "g1" "zz").2.1 gameW rfl (by decide),
   (getPlayerRole_spec stW "g1" "p1").2.2 gameW bobW rfl (by rfl),
   (getPlayerRole_spec stWS "g1" "p1").2.2 gameWS bobWA rfl (by rfl)⟩

/-! ### Character selection (C5) -/

theorem selectLoop_pieces (sample : List CharJson → Nat → List CharJson)
    (hsp : SampleSpec sample)
    (characters_data : List (String × List CharJson)) :
    ∀ distribution : List (String × Nat),
      (∀ q ∈ distribution, (characters_data.lookup q.1).isSome) →
      ∃ pieces : List (List Character),
        selectLoop sample characters_data distribution = .ok pieces.flatten ∧
        List.Forall₂ (PieceSpec characters_data) distribution pieces := by
  intro distribution
  induction distribution with
  | nil => exact fun _ => ⟨[], rfl, List.Forall₂.nil⟩
  | cons q rest ih =>
    intro hkeys
    obtain ⟨k, n⟩ := q
    obtain ⟨available, ha⟩ : ∃ a, characters_data.lookup k = some a :=
      Option.isSome_iff_exists.mp (hkeys (k, n) (by simp))
    obtain ⟨pieces, hrest, hforall⟩ :=
      ih (fun q hq => hkeys q (List.mem_cons_of_mem _ hq))
    obtain ⟨hlen, sub, hsub, hperm⟩ :=
      hsp available (min n available.length) (Nat.min_le_right _ _)
    refine ⟨(sample available (min n available.length)).map
      (fun c => mkCharacter c k) :: pieces, ?_, ?_⟩
    · simp [selectLoop, ha, hrest]
    · refine List.Forall₂.cons ⟨available, ha, by simp [hlen], ?_, sub, hsub,
        hperm.map _⟩ hforall
      intro c hc
      obtain ⟨c', _, hc'⟩ := List.mem_map.mp hc
      rw [← hc']
      rfl

/-- C5: for a known edition, when every category of the distribution is
present in the catalog, `select_random_characters` succeeds and returns the
concatenation, over the distribution entries in order, of pieces of exactly
`min required available` characters drawn without replacement from the
category's pool and tagged with the category; requesting more than
available truncates silently instead of raising. -/
theorem selectCharacters_spec (sample : List CharJson → Nat → List CharJson)
    (eds : EditionsData) (edition : String) (ed : EditionData)
    (distribution : List (String × Nat))
    (hsp : SampleSpec sample)
    (hed : eds.lookup edition = some ed)
    (hkeys : ∀ q ∈ distribution, (ed.characters.lookup q.1).isSome) :
    ∃ pieces : List (List Character),
      select_random_characters sample eds edition distribution =
        .ok pieces.flatten ∧
      List.Forall₂ (PieceSpec ed.characters) distribution pieces := by
  obtain ⟨pieces, h1, h2⟩ :=
    selectLoop_pieces sample hsp ed.characters distribution hkeys
  exact ⟨pieces, by simp [select_random_characters, hed, h1], h2⟩

/-- Witness for C5: the fixture edition, whose townsfolk bucket holds one
character while two are requested (silent truncation). -/
theorem selectCharacters_spec_witness :
    ∃ pieces : List (List Character),
      select_random_characters sampleTake edsW "tb" [("townsfolk", 2)] =
        .ok pieces.flatten ∧
      List.Forall₂ (PieceSpec edW.characters) [("townsfolk", 2)] pieces :=
  selectCharacters_spec sampleTake edsW "tb" edW [("townsfolk", 2)]
    sampleTake_spec rfl (by decide)

/-! ### Night order (C4) -/

theorem mergeSort_key_pairwise (key : Character → Nat) (l : List Character) :
    (l.mergeSort (fun a b => decide (key a ≤ key b))).Pairwise
      (fun a b => decide (key a ≤ key b) = true) :=
  List.sorted_mergeSort
    (fun a b c hab hbc => by
      simp only [decide_eq_true_eq] at hab hbc ⊢; omega)
    (fun a b => by
      rcases Nat.le_total (key a) (key b) with h | h <;> simp [h]) l

/-- Stability of the embedded sort, phrased per rank: the sublist of
elements whose key equals any fixed value is returned in its input order. -/
theorem mergeSort_filter_key (key : Character → Nat) (l : List Character)
    (r : Nat) :
    (l.mergeSort (fun a b => decide (key a ≤ key b))).filter
        (fun c => key c == r) =
      l.filter (fun c => key c == r) := by
  have hall : ∀ a ∈ l.filter (fun c => key c == r), key a = r := by
    intro a ha
    simpa using List.of_mem_filter ha
  have hpw : (l.filter (fun c => key c == r)).Pairwise
      (fun a b => decide (key a ≤ key b) = true) :=
    List.pairwise_of_forall_mem_list (fun a ha b hb => by
      simp [hall a ha, hall b hb])
  have hsub : List.Sublist (l.filter (fun c => key c == r))
      (l.mergeSort (fun a b => decide (key a ≤ key b))) :=
    List.sublist_mergeSort
      (fun a b c hab hbc => by
        simp only [decide_eq_true_eq] at hab hbc ⊢; omega)
      (fun a b => by
        rcases Nat.le_total (key a) (key b) with h | h <;> simp [h])
      hpw (List.filter_sublist l)
  have h2 : List.Sublist (l.filter (fun c => key c == r))
      ((l.mergeSort (fun a b => decide (key a ≤ key b))).filter
        (fun c => key c == r)) := by
    have h3 := hsub.filter (fun c => key c == r)
    rwa [List.filter_filter, show (fun a => (key a == r) && (key a == r)) =
      (fun a => key a == r) from funext (fun a => Bool.and_self _)] at h3
  have hlen : ((l.mergeSort (fun a b => decide (key a ≤ key b))).filter
      (fun c => key c == r)).length =
      (l.filter (fun c => key c == r)).length :=
    ((List.mergeSort_perm l _).filter _).length_eq
  exact (h2.eq_of_length hlen.symm).symm

/-- C4: for an existing but unstarted session `get_night_order` fails with
the invalid-state error; for a started session it returns, for each of the
two lists, entries that are exactly the assigned characters with positive
rank for that list (rank-0 characters excluded), sorted ascending by that
rank, with rank ties kept in the participants' join order. -/
theorem getNightOrder_spec (st : Store) (game_id : String) :
    (∀ game, st.lookup game_id = some game → game.started = false →
      get_night_order st game_id =
        .error "Spiel nicht gefunden oder noch nicht gestartet") ∧
    (∀ game no, st.lookup game_id = some game → game.started = true →
      get_night_order st game_id = .ok no →
      no.first_night.Perm
        (((game.players.filterMap (fun p => p.character)).filter
            (fun c => decide (0 < c.first_night))).map
          (fun c => ⟨c.name, c.ability, c.first_night⟩)) ∧
      no.first_night.Pairwise (fun a b => a.order ≤ b.order) ∧
      (∀ r : Nat, no.first_night.filter (fun e => e.order == r) =
        (((game.players.filterMap (fun p => p.character)).filter
            (fun c => decide (0 < c.first_night))).map
          (fun c => ⟨c.name, c.ability, c.first_night⟩)).filter
          (fun e => e.order == r)) ∧
      no.other_nights.Perm
        (((game.players.filterMap (fun p => p.character)).filter
            (fun c => decide (0 < c.other_nights))).map
          (fun c => ⟨c.name, c.ability, c.other_nights⟩)) ∧
      no.other_nights.Pairwise (fun a b => a.order ≤ b.order) ∧
      (∀ r : Nat, no.other_nights.filter (fun e => e.order == r) =
        (((game.players.filterMap (fun p => p.character)).filter
            (fun c => decide (0 < c.other_nights))).map
          (fun c => ⟨c.name, c.ability, c.other_nights⟩)).filter
          (fun e => e.order == r))) := by
  constructor
  · intro game hl hs
    simp [get_night_order, hl, hs]
  · intro game no hl hs hok
    simp only [get_night_order, hl, hs, Bool.not_true, Bool.false_eq_true,
      if_false, Except.ok.injEq] at hok
    subst hok
    refine ⟨?_, ?_, ?_, ?_, ?_, ?_⟩
    · exact (List.mergeSort_perm _ _).map _
    · have h := mergeSort_key_pairwise (fun c => c.first_night)
        ((game.players.filterMap (fun p => p.character)).filter
          (fun c => decide (0 < c.first_night)))
      rw [List.pairwise_map]
      exact h.imp (fun hab => by simpa using hab)
    · intro r
      rw [List.filter_map, List.filter_map]
      have : ((fun e : NightEntry => e.order == r) ∘
          (fun c : Character => (⟨c.name, c.ability, c.first_night⟩ : NightEntry))) =
          (fun c : Character => c.first_night == r) := rfl
      rw [this]
      rw [mergeSort_filter_key (fun c => c.first_night)]
    · exact (List.mergeSort_perm _ _).map _
    · have h := mergeSort_key_pairwise (fun c => c.other_nights)
        ((game.players.filterMap (fun p => p.character)).filter
          (fun c => decide (0 < c.other_nights)))
      rw [List.pairwise_map]
      exact h.imp (fun hab => by simpa using hab)
    · intro r
      rw [List.filter_map, List.filter_map]
      have : ((fun e : NightEntry => e.order == r) ∘
          (fun c : Character => (⟨c.name, c.ability, c.other_nights⟩ : NightEntry))) =
          (fun c : Character => c.other_nights == r) := rfl
      rw [this]
      rw [mergeSort_filter_key (fun c => c.other_nights)]

/-- Witness for C4: the unstarted fixture session raises, the started one
returns the single washerwoman entry on the first night and nothing on
other nights. -/
theorem getNightOrder_spec_witness :
    (get_night_order stW "g1" =
      .error "Spiel nicht gefunden oder noch nicht gestartet") ∧
    (noW.first_night.Perm
      (((gameWS.players.filterMap (fun p => p.character)).filter
          (fun c => decide (0 < c.first_night))).map
        (fun c => ⟨c.name, c.ability, c.first_night⟩)) ∧
     noW.first_night.Pairwise (fun a b => a.order ≤ b.order)) := by
  have hno : get_night_order stWS "g1" = .ok noW := by
    simp [get_night_order, stWS, gameWS, hostW, bobWA, carolW, charA, cjA,
      mkCharacter, noW, List.lookup]
  exact ⟨(getNightOrder_spec stW "g1").1 gameW rfl rfl,
    ⟨((getNightOrder_spec stWS "g1").2 gameWS noW rfl rfl hno).1,
     ((getNightOrder_spec stWS "g1").2 gameWS noW rfl rfl hno).2.1⟩⟩

/-! ### Storyteller overview (C7) -/

theorem get_night_order_ok_of_started (st : Store) (game_id : String)
    (game : Game) (hl : st.lookup game_id = some game)
    (hs : game.started = true) :
    ∃ no, get_night_order st game_id = .ok no := by
  cases h : get_night_order st game_id with
  | ok no => exact ⟨no, rfl⟩
  | error e =>
    exfalso
    simp [get_night_order, hl, hs] at h

/-- C7: `get_storyteller_overview` fails with the forbidden error whenever
the given participant id does not belong to the session's host, whatever
the session state; called with the host's id it returns one row per
non-host participant (name plus the assigned character's name, ability and
category, all absent when unassigned), and the night order exactly when the
session is started. -/
theorem hostOverview_spec (st : Store) (game_id player_id : String) :
    (∀ game, st.lookup game_id = some game →
      (∀ p ∈ game.players, p.id = player_id → p.is_storyteller = false) →
      get_storyteller_overview st game_id player_id =
        .error "Nur der Erzähler kann diese Ansicht sehen") ∧
    (∀ game p, st.lookup game_id = some game → p ∈ game.players →
      p.id = player_id → p.is_storyteller = true →
      ∃ ov, get_storyteller_overview st game_id player_id = .ok ov ∧
        ov.game_id = game.id ∧ ov.edition = game.edition ∧
        ov.started = game.started ∧
        ov.players = (game.players.filter
          (fun q => !q.is_storyteller)).map playerOverviewOf ∧
        (game.started = true →
          ∃ no, get_night_order st game_id = .ok no ∧
            ov.night_order = some no) ∧
        (game.started = false → ov.night_order = none)) := by
  constructor
  · intro game hl hnon
    have hfind : game.players.find?
        (fun q => q.id == player_id && q.is_storyteller) = none := by
      rw [List.find?_eq_none]
      intro q hq
      by_cases hid : q.id = player_id
      · simp [hid, hnon q hq hid]
      · simp [hid]
    simp [get_storyteller_overview, hl, hfind]
  · intro game p hl hp hid hst
    have hfind : (game.players.find?
        (fun q => q.id == player_id && q.is_storyteller)).isSome := by
      rw [List.find?_isSome]
      exact ⟨p, hp, by simp [hid, hst]⟩
    obtain ⟨q, hq⟩ := Option.isSome_iff_exists.mp hfind
    cases hstarted : game.started with
    | true =>
      obtain ⟨no, hno⟩ :=
        get_night_order_ok_of_started st game_id game hl hstarted
      have hov : get_storyteller_overview st game_id player_id =
          .ok { game_id := game.id, edition := game.edition,
                started := true,
                players := (game.players.filter
                  (fun q => !q.is_storyteller)).map playerOverviewOf,
                night_order := some no } := by
        simp [get_storyteller_overview, hl, hq, hstarted, hno, Except.map]
      exact ⟨_, hov, rfl, rfl, rfl, rfl, fun _ => ⟨no, hno, rfl⟩,
        fun hc => Bool.noConfusion hc⟩
    | false =>
      have hov : get_storyteller_overview st game_id player_id =
          .ok { game_id := game.id, edition := game.edition,
                started := false,
                players := (game.players.filter
                  (fun q => !q.is_storyteller)).map playerOverviewOf,
                night_order := none } := by
        simp [get_storyteller_overview, hl, hq, hstarted]
      exact ⟨_, hov, rfl, rfl, rfl, rfl,
        fun hc => Bool.noConfusion hc, fun _ => rfl⟩

/-- Witness for C7: Bob (a non-host) is rejected both before and after the
session starts; Alice (the host) gets the overview both before (no night
order) and after the start (with night order). -/
theorem hostOverview_spec_witness :
    (get_storyteller_overview stW "g1" "p1" =
      .error "Nur der Erzähler kann diese Ansicht sehen") ∧
    (get_storyteller_overview stWS "g1" "p1" =
      .error "Nur der Erzähler kann diese Ansicht sehen") ∧
    (∃ ov, get_storyteller_overview stW "g1" "h1" = .ok ov ∧
      ov.game_id = gameW.id ∧ ov.edition = gameW.edition ∧
      ov.started = gameW.started ∧
      ov.players = (gameW.players.filter
        (fun q => !q.is_storyteller)).map playerOverviewOf ∧
      (gameW.started = true →
        ∃ no, get_night_order stW "g1" = .ok no ∧ ov.night_order = some no) ∧
      (gameW.started = false → ov.night_order = none)) ∧
    (∃ ov, get_storyteller_overview stWS "g1" "h1" = .ok ov ∧
      ov.game_id = gameWS.id ∧ ov.edition = gameWS.edition ∧
      ov.started = gameWS.started ∧
      ov.players = (gameWS.players.filter
        (fun q => !q.is_storyteller)).map playerOverviewOf ∧
      (gameWS.started = true →
        ∃ no, get_night_order stWS "g1" = .ok no ∧ ov.night_order = some no) ∧
      (gameWS.started = false → ov.night_order = none)) :=
  ⟨(hostOverview_spec stW "g1" "p1").1 gameW rfl (by decide),
   (hostOverview_spec stWS "g1" "p1").1 gameWS rfl (by decide),
   (hostOverview_spec stW "g1" "h1").2 gameW hostW rfl (by decide) rfl rfl,
   (hostOverview_spec stWS "g1" "h1").2 gameWS hostW rfl (by decide) rfl rfl⟩

/-! ### Reachable states and the host invariant (C10) -/

theorem lookup_mem {α β : Type} [BEq α] [LawfulBEq α] (l : List (α × β))
    (k : α) (v : β) (h : l.lookup k = some v) : (k, v) ∈ l := by
  induction l with
  | nil => cases h
  | cons hd tl ih =>
    obtain ⟨k0, v0⟩ := hd
    rw [List.lookup] at h
    cases hbeq : k == k0 with
    | true =>
      rw [hbeq] at h
      injection h with hv
      have hk : k = k0 := eq_of_beq hbeq
      simp [hk, hv]
    | false =>
      rw [hbeq] at h
      exact List.mem_cons_of_mem _ (ih h)

theorem create_game_ok (eds : EditionsData)
    (edition storyteller_name game_id storyteller_id : String) (st : Store)
    (g : Game) (st' : Store)
    (h : create_game eds edition storyteller_name game_id storyteller_id st =
      .ok g st') :
    g = { id := game_id, edition := edition,
          players := [{ id := storyteller_id, name := storyteller_name,
                        character := none, is_storyteller := true }],
          started := false, player_count := none } ∧
    st' = storeSet st game_id g := by
  simp only [create_game] at h
  split at h
  · exact (EStateM.Result.noConfusion h)
  · injection h with h1 h2
    subst h1
    exact ⟨rfl, h2.symm⟩

theorem join_game_ok (game_id player_name player_id : String) (st : Store)
    (p : Player) (st' : Store)
    (h : join_game game_id player_name player_id st = .ok p st') :
    ∃ game, st.lookup game_id = some game ∧ game.started = false ∧
      p = { id := player_id, name := player_name, character := none,
            is_storyteller := false } ∧
      st' = storeSet st game_id
        { game with players := game.players ++ [p] } := by
  simp only [join_game] at h
  split at h
  · exact (EStateM.Result.noConfusion h)
  next game hl =>
    split at h
    · exact (EStateM.Result.noConfusion h)
    next hs =>
      injection h with h1 h2
      subst h1
      exact ⟨game, hl, Bool.not_eq_true _ ▸ Bool.of_not_eq_true hs, rfl,
        h2.symm⟩

theorem reachable_hostInv (eds : EditionsData) (st : Store)
    (h : Reachable eds st) : ∀ x ∈ st, HostInv x.2 := by
  induction h with
  | init => intro x hx; cases hx
  | create st edition storyteller_name game_id storyteller_id g st' _ hok ih =>
    obtain ⟨hg, hst'⟩ := create_game_ok eds edition storyteller_name game_id
      storyteller_id st g st' hok
    intro x hx
    rw [hst'] at hx
    rcases mem_storeSet st game_id g x hx with h1 | h1
    · rw [h1, hg]
      exact ⟨_, [], rfl, rfl, rfl, fun p hp => absurd hp (List.not_mem_nil p)⟩
    · exact ih x h1
  | join st game_id player_name player_id p st' _ hok ih =>
    obtain ⟨game, hl, _, hp, hst'⟩ :=
      join_game_ok game_id player_name player_id st p st' hok
    intro x hx
    rw [hst'] at hx
    rcases mem_storeSet st game_id _ x hx with h1 | h1
    · obtain ⟨host, rest, hplayers, hhost, hchar, hrest⟩ :=
        ih (game_id, game) (lookup_mem st game_id game hl)
      have hp2 : game.players = host :: rest := hplayers
      rw [h1]
      refine ⟨host, rest ++ [p], ?_, hhost, hchar, ?_⟩
      · simp [hp2]
      · intro q hq
        rcases List.mem_append.mp hq with h2 | h2
        · exact hrest q h2
        · rw [List.mem_singleton.mp h2, hp]
    · exact ih x h1
  | start st sample shuffle game_id pc g st' _ hok ih =>
    obtain ⟨game, distribution, selected, hl, _, _, _, _, hg, hst'⟩ :=
      start_game_ok eds sample shuffle game_id pc st g st' hok
    intro x hx
    rw [hst'] at hx
    rcases mem_storeSet st game_id g x hx with h1 | h1
    · obtain ⟨host, rest, hplayers, hhost, hchar, hrest⟩ :=
        ih (game_id, game) (lookup_mem st game_id game hl)
      rw [h1, hg]
      have hp2 : game.players = host :: rest := hplayers
      refine ⟨host, assignCharacters rest (shuffle selected), ?_, hhost,
        hchar, ?_⟩
      · rw [hp2]
        exact assignCharacters_cons_host host rest (shuffle selected) hhost
      · exact assignCharacters_nonhost_flag rest (shuffle selected) hrest
    · exact ih x h1

/-- C10: in every reachable state, a host participant never has an
assigned character, and `get_player_role` called with the host's own id
returns `none` — even after the session has started. -/
theorem host_never_assigned (eds : EditionsData) (st : Store)
    (h : Reachable eds st) :
    ∀ game_id game, st.lookup game_id = some game →
      ∀ host ∈ game.players, host.is_storyteller = true →
        host.character = none ∧
        get_player_role st game_id host.id = none := by
  intro game_id game hl host hmem hhost
  obtain ⟨h0, rest, hplayers, hh0, hchar, hrest⟩ :=
    reachable_hostInv eds st h (game_id, game) (lookup_mem st game_id game hl)
  have hhost_eq : host = h0 := by
    rw [hplayers] at hmem
    rcases List.mem_cons.mp hmem with h1 | h1
    · exact h1
    · exact absurd hhost (by simp [hrest host h1])
  subst hhost_eq
  refine ⟨hchar, ?_⟩
  have hfind : game.players.find? (fun q => q.id == host.id) = some host := by
    rw [hplayers]
    simp [List.find?_cons]
  simp [get_player_role, hl, hfind, hchar]

/-- Witness for C10: the exact fixture session built by create, two joins
and a successful start; Alice the host still has no character and her role
lookup returns `none`. -/
theorem host_never_assigned_witness :
    hostW.character = none ∧ get_player_role stWS "g1" hostW.id = none := by
  have r0 : Reachable edsW [] := Reachable.init
  have r1 : Reachable edsW
      [("g1", { id := "g1", edition := "tb", players := [hostW],
                started := false, player_count := none })] :=
    Reachable.create [] "tb" "Alice" "g1" "h1" _ _ r0 (by rfl)
  have r2 : Reachable edsW
      [("g1", { id := "g1", edition := "tb", players := [hostW, bobW],
                started := false, player_count := none })] :=
    Reachable.join _ "g1" "Bob" "p1" _ _ r1 (by rfl)
  have r3 : Reachable edsW stW :=
    Reachable.join _ "g1" "Carol" "p2" _ _ r2 (by rfl)
  have r4 : Reachable edsW stWS :=
    Reachable.start stW sampleTake shuffleId "g1" 2 gameWS stWS r3 (by rfl)
  exact host_never_assigned edsW stWS r4 "g1" gameWS rfl hostW (by decide) rfl

/-! ### Uniqueness of assigned character ids (C2) -/

theorem lookup_value_sublist {γ : Type} (cd : List (String × List γ))
    (k : String) (L : List γ) (h : cd.lookup k = some L) :
    List.Sublist L (cd.map Prod.snd).flatten := by
  induction cd with
  | nil => cases h
  | cons hd tl ih =>
    obtain ⟨k0, L0⟩ := hd
    rw [List.lookup] at h
    cases hbeq : k == k0 with
    | true =>
      rw [hbeq] at h
      injection h with hv
      subst hv
      simp only [List.map_cons, List.flatten_cons]
      exact List.sublist_append_left L0 (tl.map Prod.snd).flatten
    | false =>
      rw [hbeq] at h
      simpa using (ih h).trans
        (List.sublist_append_right L0 (tl.map Prod.snd).flatten)

/-- Two buckets looked up at different keys contribute disjoint character
ids, provided the whole catalog's ids are distinct. -/
theorem lookup_ne_disjoint (cd : List (String × List CharJson))
    (k k' : String) (L L' : List CharJson) (hk : k ≠ k')
    (h1 : cd.lookup k = some L) (h2 : cd.lookup k' = some L')
    (hnd : (((cd.map Prod.snd).flatten).map (fun c => c.id)).Nodup) :
    ∀ i ∈ L.map (fun c => c.id), i ∉ L'.map (fun c => c.id) := by
  induction cd with
  | nil => cases h1
  | cons hd tl ih =>
    obtain ⟨k0, L0⟩ := hd
    have hnd' : (L0.map (fun c => c.id)).Nodup ∧
        (((tl.map Prod.snd).flatten).map (fun c => c.id)).Nodup ∧
        List.Disjoint (L0.map (fun c => c.id))
          (((tl.map Prod.snd).flatten).map (fun c => c.id)) := by
      rw [← List.nodup_append]
      simpa [List.map_append] using hnd
    rw [List.lookup] at h1 h2
    cases hbeq1 : k == k0 with
    | true =>
      rw [hbeq1] at h1
      injection h1 with hv
      subst hv
      have hbeq2 : (k' == k0) = false := by
        have : k = k0 := eq_of_beq hbeq1
        subst this
        exact beq_eq_false_iff_ne.mpr (Ne.symm hk)
      rw [hbeq2] at h2
      intro i hi hi'
      have hsub : List.Sublist L' (tl.map Prod.snd).flatten :=
        lookup_value_sublist tl k' L' h2
      have : i ∈ ((tl.map Prod.snd).flatten).map (fun c => c.id) :=
        (hsub.map (fun c => c.id)).subset hi'
      exact hnd'.2.2 hi this
    | false =>
      rw [hbeq1] at h1
      cases hbeq2 : k' == k0 with
      | true =>
        rw [hbeq2] at h2
        injection h2 with hv
        subst hv
        intro i hi hi'
        have hsub : List.Sublist L (tl.map Prod.snd).flatten :=
          lookup_value_sublist tl k L h1
        have : i ∈ ((tl.map Prod.snd).flatten).map (fun c => c.id) :=
          (hsub.map (fun c => c.id)).subset hi
        exact hnd'.2.2 hi' this
      | false =>
        rw [hbeq2] at h2
        exact ih h1 h2 hnd'.2.1

/-- The ids of the characters produced by the selection loop are pairwise
distinct, and each traces back to the bucket of one of the distribution's
categories, provided the distribution's categories are distinct and the
catalog's ids are globally distinct. -/
theorem selectLoop_ids_nodup (sample : List CharJson → Nat → List CharJson)
    (hsp : SampleSpec sample) (cd : List (String × List CharJson)) :
    ∀ (dist : List (String × Nat)) (cs : List Character),
      (dist.map Prod.fst).Nodup →
      (((cd.map Prod.snd).flatten).map (fun c => c.id)).Nodup →
      selectLoop sample cd dist = .ok cs →
      (cs.map (fun c => c.id)).Nodup ∧
      (∀ i ∈ cs.map (fun c => c.id), ∃ k L, k ∈ dist.map Prod.fst ∧
        cd.lookup k = some L ∧ i ∈ L.map (fun c => c.id)) := by
  intro dist
  induction dist with
  | nil =>
    intro cs _ _ hok
    injection hok with hcs
    subst hcs
    exact ⟨List.nodup_nil, fun i hi => absurd hi (List.not_mem_nil i)⟩
  | cons q rest ih =>
    intro cs hkeys hnd hok
    obtain ⟨k, n⟩ := q
    rw [selectLoop] at hok
    cases ha : cd.lookup k with
    | none => rw [ha] at hok; cases hok
    | some available =>
      rw [ha] at hok
      cases hrec : selectLoop sample cd rest with
      | error e => rw [hrec] at hok; cases hok
      | ok others =>
        rw [hrec] at hok
        injection hok with hcs
        subst hcs
        have hkeys_rest : (rest.map Prod.fst).Nodup :=
          (List.nodup_cons.mp (by simpa using hkeys)).2
        have hknotin : k ∉ rest.map Prod.fst :=
          (List.nodup_cons.mp (by simpa using hkeys)).1
        obtain ⟨ihnd, ihmem⟩ := ih others hkeys_rest hnd hrec
        obtain ⟨hlen, sub, hsub, hperm⟩ :=
          hsp available (min n available.length) (Nat.min_le_right _ _)
        set chosen := sample available (min n available.length) with hchosen
        have hmapid : (chosen.map (fun c => mkCharacter c k)).map
            (fun c => c.id) = chosen.map (fun c => c.id) := by
          rw [List.map_map]; rfl
        have havail_nd : (available.map (fun c => c.id)).Nodup :=
          ((lookup_value_sublist cd k available ha).map
            (fun c => c.id)).nodup hnd
        have hchosen_sub : ∀ i ∈ chosen.map (fun c => c.id),
            i ∈ available.map (fun c => c.id) := by
          intro i hi
          have h1 : i ∈ sub.map (fun c => c.id) :=
            ((hperm.map (fun c => c.id)).mem_iff).mp hi
          exact (hsub.map (fun c => c.id)).subset h1
        have hchosen_nd : (chosen.map (fun c => c.id)).Nodup := by
          have h1 : (sub.map (fun c => c.id)).Nodup :=
            ((hsub.map (fun c => c.id)).nodup) havail_nd
          exact ((hperm.map (fun c => c.id)).nodup_iff).mpr h1
        have hdisj : List.Disjoint (chosen.map (fun c => c.id))
            (others.map (fun c => c.id)) := by
          intro i hi hi'
          obtain ⟨k', L', hk'mem, hk'look, hiL'⟩ := ihmem i hi'
          have hkne : k ≠ k' := fun he => hknotin (he ▸ hk'mem)
          exact lookup_ne_disjoint cd k k' available L' hkne ha hk'look hnd
            i (hchosen_sub i hi) hiL'
        constructor
        · rw [List.map_append, hmapid]
          exact List.Nodup.append hchosen_nd ihnd hdisj
        · intro i hi
          rw [List.map_append, hmapid] at hi
          rcases List.mem_append.mp hi with h1 | h1
          · exact ⟨k, available, by simp, ha, hchosen_sub i h1⟩
          · obtain ⟨k', L', hk'mem, hk'look, hiL'⟩ := ihmem i h1
            exact ⟨k', L', by simp [hk'mem], hk'look, hiL'⟩

/-- C2: after a successful `start_game` on a session with `pc` non-host
participants (and no characters assigned beforehand), with `distribution`
the session's actual table entry for `pc` and `selected` the run's actual
selection from it, the number of participants holding a character is
exactly `min pc |selected|` — exactly `pc` unless the run's selected list
was shorter — and no two participants hold characters with the same id,
assuming the `random.sample` and `random.shuffle` contracts, per-entry
distinct distribution categories and globally distinct catalog ids. -/
theorem startSession_roles_unique (eds : EditionsData)
    (sample : List CharJson → Nat → List CharJson)
    (shuffle : List Character → List Character)
    (game_id : String) (pc : Nat) (st : Store) (game game' : Game)
    (st' : Store)
    (hsp : SampleSpec sample) (hsh : ShuffleSpec shuffle)
    (hl : st.lookup game_id = some game)
    (hpre : ∀ p ∈ game.players, p.character = none)
    (hids : ∀ q ∈ eds,
      (((q.2.characters.map Prod.snd).flatten).map (fun c => c.id)).Nodup)
    (hdistkeys : ∀ q ∈ eds, ∀ e ∈ q.2.setup, (e.2.map Prod.fst).Nodup)
    (h : start_game eds sample shuffle game_id pc st = .ok game' st') :
    ∃ selected distribution,
      get_role_distribution eds game.edition pc = .ok distribution ∧
      select_random_characters sample eds game.edition distribution =
        .ok selected ∧
      (game'.players.filterMap (fun p => p.character)).length =
        min pc selected.length ∧
      ((game'.players.filterMap (fun p => p.character)).map
        (fun c => c.id)).Nodup := by
  obtain ⟨game₀, distribution, selected, hl₀, hs₀, hcnt, hd, hsel, hg, _⟩ :=
    start_game_ok eds sample shuffle game_id pc st game' st' h
  rw [hl] at hl₀
  injection hl₀ with hgeq
  subst hgeq
  refine ⟨selected, distribution, hd, hsel, ?_, ?_⟩
  · rw [hg]
    simp only []
    rw [filterMap_assignCharacters game.players (shuffle selected) hpre, hcnt]
    rw [List.length_take, (hsh selected).length_eq]
  · -- invert the distribution and selection to reach the selection loop
    simp only [get_role_distribution] at hd
    split at hd
    · exact absurd hd (by simp)
    next ed he =>
      split at hd
      · exact absurd hd (by simp)
      next d hsetup =>
        injection hd with hdeq
        subst hdeq
        simp only [select_random_characters, he] at hsel
        have hedmem : (game.edition, ed) ∈ eds :=
          lookup_mem eds game.edition ed he
        have hdistmem : (pc, d) ∈ ed.setup :=
          lookup_mem ed.setup pc d hsetup
        obtain ⟨snodup, _⟩ := selectLoop_ids_nodup sample hsp ed.characters
          d selected (hdistkeys _ hedmem _ hdistmem)
          (hids _ hedmem) hsel
        have hshuffle_nd : ((shuffle selected).map (fun c => c.id)).Nodup :=
          (((hsh selected).map (fun c => c.id)).nodup_iff).mpr snodup
        rw [hg]
        simp only []
        rw [filterMap_assignCharacters game.players (shuffle selected) hpre,
          hcnt]
        exact ((List.take_sublist pc (shuffle selected)).map
          (fun c => c.id)).nodup hshuffle_nd

/-- Witness for C2 at the fixture session: one character is assigned
(min 2 1 = 1) and its id is trivially unique. -/
theorem startSession_roles_unique_witness :
    ∃ selected distribution,
      get_role_distribution edsW gameW.edition 2 = .ok distribution ∧
      select_random_characters sampleTake edsW gameW.edition distribution =
        .ok selected ∧
      (gameWS.players.filterMap (fun p => p.character)).length =
        min 2 selected.length ∧
      ((gameWS.players.filterMap (fun p => p.character)).map
        (fun c => c.id)).Nodup :=
  startSession_roles_unique edsW sampleTake shuffleId "g1" 2 stW gameW gameWS
    stWS sampleTake_spec shuffleId_spec rfl (by decide) (by decide)
    (by decide) (by rfl)
